import Mathlib

/-!
Verification of the natural-language specification of `ao-io-posix`, a JNI
binding layer exposing POSIX filesystem primitives to Java.

The shallow embedding below transcribes the C sources:
- `aocode_shared.c` (two verbatim copies, one per binding generation):
  the errno-to-exception-class classifier `getErrorType`;
- `jni_util.c`: the ISO-8859-1 marshaling functions `getString8859_1Chars`
  (encode, Java string to null-terminated byte buffer) and `newString8859_1`
  (decode, null-terminated byte buffer to Java string);
- `com_aoapps_io_posix_PosixFile.c`: the `getStat0`, `utime0` and `readLink0`
  wrappers;
- `com_aoapps_io_posix_linux_DevRandom.c`: the `addEntropy0` entropy
  injection wrapper.

Java strings are modelled as lists of UTF-16 code units (`List Nat`, each
element below 65536); C byte buffers as lists of bytes (`List Nat`, each
element below 256). errno values are the Linux constants from `<errno.h>`
(the repository targets Linux: the `DevRandom` binding is Linux-only).
Syscall outcomes are passed in explicitly, since the kernel's behaviour is
environment nondeterminism.
-/

/-! ### errno constants (Linux, from `<errno.h>`) -/

def EPERM : Nat := 1
def ENOENT : Nat := 2
def EINTR : Nat := 4
def Eio : Nat := 5
def EBADF : Nat := 9
def ENOMEM : Nat := 12
def EACCES : Nat := 13
def EFAULT : Nat := 14
def EEXIST : Nat := 17
def EXDEV : Nat := 18
def ENOTDIR : Nat := 20
def EINVAL : Nat := 22
def ENOSPC : Nat := 28
def EROFS : Nat := 30
def EMLINK : Nat := 31
def ENAMETOOLONG : Nat := 36
def ENOSYS : Nat := 38
def ELOOP : Nat := 40

/-! ### Exception class names (from `aocode_shared.h`, both generations) -/

def FILE_NOT_FOUND_EXCEPTION : String := "java/io/FileNotFoundException"
def IO_EXCEPTION : String := "java/io/IOException"
def ILLEGAL_ARGUMENT_EXCEPTION : String := "java/lang/IllegalArgumentException"
def INTERRUPTED_IO_EXCEPTION : String := "java/io/InterruptedIOException"
def NO_SUCH_METHOD_EXCEPTION : String := "java/lang/NoSuchMethodException"
def OUT_OF_MEMORY_EXCEPTION : String := "java/lang/OutOfMemoryError"
def RUNTIME_EXCEPTION : String := "java/lang/RuntimeException"
def SECURITY_EXCEPTION : String := "java/lang/SecurityException"

namespace aoapps

/-- Transcription of `getErrorType` from
`src/main/c/com/aoapps/io/posix/aocode_shared.c` (the newer binding
generation), an if-else chain on `errno`. -/
def getErrorType (err : Nat) : String :=
  if err = EACCES then SECURITY_EXCEPTION
  else if err = EBADF then IO_EXCEPTION
  else if err = EEXIST then IO_EXCEPTION
  else if err = EFAULT then RUNTIME_EXCEPTION
  else if err = EINTR then INTERRUPTED_IO_EXCEPTION
  else if err = EINVAL then ILLEGAL_ARGUMENT_EXCEPTION
  else if err = Eio then IO_EXCEPTION
  else if err = ELOOP then FILE_NOT_FOUND_EXCEPTION
  else if err = EMLINK then IO_EXCEPTION
  else if err = ENAMETOOLONG then ILLEGAL_ARGUMENT_EXCEPTION
  else if err = ENOENT then FILE_NOT_FOUND_EXCEPTION
  else if err = ENOMEM then OUT_OF_MEMORY_EXCEPTION
  else if err = ENOSPC then IO_EXCEPTION
  else if err = ENOSYS then NO_SUCH_METHOD_EXCEPTION
  else if err = ENOTDIR then IO_EXCEPTION
  else if err = EPERM then SECURITY_EXCEPTION
  else if err = EROFS then IO_EXCEPTION
  else if err = EXDEV then IO_EXCEPTION
  else RUNTIME_EXCEPTION

end aoapps

namespace aoindustries

/-- Transcription of `getErrorType` from
`src/com/aoindustries/io/unix/aocode_shared.c` (the older binding
generation), an if-else chain on `errno`. -/
def getErrorType (err : Nat) : String :=
  if err = EACCES then SECURITY_EXCEPTION
  else if err = EBADF then IO_EXCEPTION
  else if err = EEXIST then IO_EXCEPTION
  else if err = EFAULT then RUNTIME_EXCEPTION
  else if err = EINTR then INTERRUPTED_IO_EXCEPTION
  else if err = EINVAL then ILLEGAL_ARGUMENT_EXCEPTION
  else if err = Eio then IO_EXCEPTION
  else if err = ELOOP then FILE_NOT_FOUND_EXCEPTION
  else if err = EMLINK then IO_EXCEPTION
  else if err = ENAMETOOLONG then ILLEGAL_ARGUMENT_EXCEPTION
  else if err = ENOENT then FILE_NOT_FOUND_EXCEPTION
  else if err = ENOMEM then OUT_OF_MEMORY_EXCEPTION
  else if err = ENOSPC then IO_EXCEPTION
  else if err = ENOSYS then NO_SUCH_METHOD_EXCEPTION
  else if err = ENOTDIR then IO_EXCEPTION
  else if err = EPERM then SECURITY_EXCEPTION
  else if err = EROFS then IO_EXCEPTION
  else if err = EXDEV then IO_EXCEPTION
  else RUNTIME_EXCEPTION

end aoindustries

/-- The spec's semantic error categories (§4.2 of the design document),
each the semantic reading of one Java exception class thrown by the
bindings. -/
inductive ErrorCategory where
  | SecurityViolation
  | IOFailure
  | InvalidArgument
  | InterruptedIo
  | MethodUnsupported
  | OutOfMemory
  | GenericRuntimeFailure
  | PathNotFound
  deriving DecidableEq, Repr

/-- The spec's fixed correspondence between the Java exception classes
thrown by the native code and the `ErrorCategory` taxonomy. -/
def exceptionCategory (cls : String) : ErrorCategory :=
  if cls = SECURITY_EXCEPTION then .SecurityViolation
  else if cls = IO_EXCEPTION then .IOFailure
  else if cls = ILLEGAL_ARGUMENT_EXCEPTION then .InvalidArgument
  else if cls = INTERRUPTED_IO_EXCEPTION then .InterruptedIo
  else if cls = NO_SUCH_METHOD_EXCEPTION then .MethodUnsupported
  else if cls = OUT_OF_MEMORY_EXCEPTION then .OutOfMemory
  else if cls = FILE_NOT_FOUND_EXCEPTION then .PathNotFound
  else .GenericRuntimeFailure

/-- Contract `classify(errorCode) -> ErrorCategory`: the category of the exception
class chosen by the (newer generation) `getErrorType`. -/
def classify (err : Nat) : ErrorCategory :=
  exceptionCategory (aoapps.getErrorType err)

/-- The errno values handled by named branches of `getErrorType`; every
other value falls through to the final `else`. -/
def listedErrnos : List Nat :=
  [EACCES, EBADF, EEXIST, EFAULT, EINTR, EINVAL, Eio, ELOOP, EMLINK,
   ENAMETOOLONG, ENOENT, ENOMEM, ENOSPC, ENOSYS, ENOTDIR, EPERM, EROFS, EXDEV]

/-- C1. The error classifier is a total function on POSIX error codes
mapping EACCES and EPERM to SecurityViolation; EBADF, EEXIST, Eio, EMLINK,
ENOSPC, ENOTDIR, EROFS and EXDEV to IOFailure; EFAULT to
GenericRuntimeFailure; EINTR to InterruptedIo; EINVAL and ENAMETOOLONG to
InvalidArgument; ELOOP and ENOENT to PathNotFound; ENOMEM to OutOfMemory;
ENOSYS to MethodUnsupported; and every other error code to
GenericRuntimeFailure. -/
theorem classify_spec :
    (classify EACCES = .SecurityViolation ∧
     classify EPERM = .SecurityViolation ∧
     classify EBADF = .IOFailure ∧
     classify EEXIST = .IOFailure ∧
     classify Eio = .IOFailure ∧
     classify EMLINK = .IOFailure ∧
     classify ENOSPC = .IOFailure ∧
     classify ENOTDIR = .IOFailure ∧
     classify EROFS = .IOFailure ∧
     classify EXDEV = .IOFailure ∧
     classify EFAULT = .GenericRuntimeFailure ∧
     classify EINTR = .InterruptedIo ∧
     classify EINVAL = .InvalidArgument ∧
     classify ENAMETOOLONG = .InvalidArgument ∧
     classify ELOOP = .PathNotFound ∧
     classify ENOENT = .PathNotFound ∧
     classify ENOMEM = .OutOfMemory ∧
     classify ENOSYS = .MethodUnsupported) ∧
    ∀ err : Nat, err ∉ listedErrnos → classify err = .GenericRuntimeFailure := by
  refine ⟨by decide, ?_⟩
  intro err h
  simp only [listedErrnos, List.mem_cons, List.not_mem_nil, or_false,
    not_or] at h
  obtain ⟨h1, h2, h3, h4, h5, h6, h7, h8, h9, h10, h11, h12, h13, h14, h15,
    h16, h17, h18⟩ := h
  simp only [classify, aoapps.getErrorType, if_neg h1, if_neg h2, if_neg h3,
    if_neg h4, if_neg h5, if_neg h6, if_neg h7, if_neg h8, if_neg h9,
    if_neg h10, if_neg h11, if_neg h12, if_neg h13, if_neg h14, if_neg h15,
    if_neg h16, if_neg h17, if_neg h18]
  decide

/-- Witness for `classify_spec`: errno 71 (EPROTO) is unlisted and
classifies as GenericRuntimeFailure. -/
theorem classify_spec_witness :
    (71 : Nat) ∉ listedErrnos ∧ classify 71 = .GenericRuntimeFailure :=
  ⟨by decide, classify_spec.2 71 (by decide)⟩

/-- C2. The two copies of `getErrorType`, one per binding generation,
are extensionally equal: for every error code they choose the same
exception class, hence the same error category. -/
theorem getErrorType_generations_agree :
    ∀ err : Nat, aoapps.getErrorType err = aoindustries.getErrorType err := by
  intro err
  rfl

/-! ### String marshaling (`jni_util.c`) -/

/-- One iteration of the encode loop in `getString8859_1Chars`:
`if (unicode <= 0x00ff) result[i] = unicode; else result[i] = '?';`
(`'?'` is byte 63). -/
def encodeChar (unicode : Nat) : Nat :=
  if unicode ≤ 0xff then unicode else 63

/-- Transcription of `getString8859_1Chars` from `jni_util.c` (encode): the
Java string's code units are written through `encodeChar` into a freshly
allocated buffer of `len+1` bytes whose final byte is `'\0'`. -/
def getString8859_1Chars (str : List Nat) : List Nat :=
  str.map encodeChar ++ [0]

/-- Transcription of `newString8859_1` from `jni_util.c` (decode): the
length is measured with `strlen` (the bytes before the first 0), and each
byte is reinterpreted as `(unsigned char)` (value modulo 256). -/
def newString8859_1 (str : List Nat) : List Nat :=
  (str.takeWhile (fun b => b != 0)).map (fun b => b % 256)

theorem encodeChar_le (c : Nat) : encodeChar c ≤ 255 := by
  unfold encodeChar
  split <;> omega

theorem encodeChar_ne_zero {c : Nat} (hc : c ≠ 0) : encodeChar c ≠ 0 := by
  unfold encodeChar
  split <;> omega

theorem takeWhile_map_encode (s : List Nat) :
    (s.map encodeChar ++ [0]).takeWhile (fun b => b != 0) =
      (s.takeWhile (fun c => c != 0)).map encodeChar := by
  induction s with
  | nil => simp
  | cons a tl ih =>
    by_cases ha : a = 0
    · subst ha
      simp [encodeChar]
    · have h1 : ((fun b : Nat => b != 0) (encodeChar a)) = true := by
        simp only [bne_iff_ne, ne_eq]
        exact encodeChar_ne_zero ha
      have h2 : ((fun c : Nat => c != 0) a) = true := by
        simp only [bne_iff_ne, ne_eq]
        exact ha
      rw [List.map_cons, List.cons_append,
        List.takeWhile_cons_of_pos (p := fun b : Nat => b != 0)
          (a := encodeChar a) h1,
        List.takeWhile_cons_of_pos (p := fun c : Nat => c != 0) (a := a) h2,
        List.map_cons, ih]

theorem newString_getString (s : List Nat) :
    newString8859_1 (getString8859_1Chars s) =
      (s.takeWhile (fun c => c != 0)).map encodeChar := by
  unfold newString8859_1 getString8859_1Chars
  rw [takeWhile_map_encode, List.map_map]
  refine List.map_congr_left fun c _ => ?_
  have h := encodeChar_le c
  simp only [Function.comp_apply]
  omega

/-- C3. For every string all of whose codepoints are between 1 and 255
(printable Latin-1: no NUL, nothing above 255), decoding the encoding gives
the string back: `newString8859_1 (getString8859_1Chars s) = s`. -/
theorem decode_encode_printable (s : List Nat)
    (h : ∀ c ∈ s, 1 ≤ c ∧ c ≤ 255) :
    newString8859_1 (getString8859_1Chars s) = s := by
  rw [newString_getString]
  have htw : s.takeWhile (fun c => c != 0) = s := by
    induction s with
    | nil => rfl
    | cons a tl ih =>
      have ha := h a (List.mem_cons_self a tl)
      rw [List.takeWhile_cons_of_pos (by simp; omega)]
      exact congrArg _ (ih fun c hc => h c (List.mem_cons_of_mem a hc))
  rw [htw]
  have : ∀ c ∈ s, encodeChar c = c := by
    intro c hc
    have := h c hc
    unfold encodeChar
    split <;> omega
  rw [List.map_congr_left this]
  simp

/-- Witness for `decode_encode_printable` at the concrete string
"/home" (codepoints 47, 104, 111, 109, 101). -/
theorem decode_encode_printable_witness :
    (∀ c ∈ ([47, 104, 111, 109, 101] : List Nat), 1 ≤ c ∧ c ≤ 255) ∧
    newString8859_1 (getString8859_1Chars [47, 104, 111, 109, 101]) =
      [47, 104, 111, 109, 101] :=
  ⟨by decide, decode_encode_printable [47, 104, 111, 109, 101] (by decide)⟩

/-- C9. The encoder maps each codepoint at most 255 to the byte of the
same value and each codepoint above 255 to `'?'` (byte 63), producing a
buffer of exactly `length+1` bytes ending in a zero byte; it is a total
function (the lossy replacement raises no error), so the enclosing
operation proceeds to its syscall. -/
theorem getString8859_1Chars_spec (s : List Nat) :
    (getString8859_1Chars s).length = s.length + 1 ∧
    (getString8859_1Chars s).getLast? = some 0 ∧
    ∀ (i : Nat) (c : Nat), s[i]? = some c →
      (getString8859_1Chars s)[i]? = some (if c ≤ 255 then c else 63) := by
  refine ⟨by simp [getString8859_1Chars], ?_, ?_⟩
  · unfold getString8859_1Chars
    exact List.getLast?_concat _
  · intro i c hc
    have hi : i < s.length := by
      by_contra hge
      have hnone : s[i]? = none := List.getElem?_eq_none (by omega)
      rw [hnone] at hc
      exact Option.noConfusion hc
    unfold getString8859_1Chars
    have happ : (List.map encodeChar s ++ [0])[i]? = (List.map encodeChar s)[i]? :=
      List.getElem?_append_left (by simpa using hi)
    rw [happ, List.getElem?_map, hc]
    simp [encodeChar]

/-- Witness for `getString8859_1Chars_spec`: in the string with codepoints
65 and 300, position 1 encodes to byte 63 (`'?'`). -/
theorem getString8859_1Chars_spec_witness :
    ([65, 300] : List Nat)[1]? = some 300 ∧
    (getString8859_1Chars [65, 300])[1]? = some 63 := by
  refine ⟨by decide, ?_⟩
  have h := (getString8859_1Chars_spec [65, 300]).2.2 1 300 (by decide)
  simpa using h

theorem takeWhile_length_lt_of_mem_zero {s : List Nat} (h : 0 ∈ s) :
    (s.takeWhile (fun c => c != 0)).length < s.length := by
  induction s with
  | nil => cases h
  | cons a tl ih =>
    by_cases ha : a = 0
    · subst ha
      rw [List.takeWhile_cons_of_neg (by simp)]
      simp
    · rcases List.mem_cons.mp h with h0 | h0
      · exact absurd h0.symm ha
      · rw [List.takeWhile_cons_of_pos (p := fun c : Nat => c != 0) (a := a)
          (by simp only [bne_iff_ne, ne_eq]; exact ha)]
        simpa using ih h0

/-- C10 counterexample. For the string with codepoints 300, 0, 65
(which contains NUL), decoding the encoding does not equal the prefix of
the string before its first NUL: the codepoint 300 was lossily replaced by
`'?'` during encoding, so the decoder returns codepoint 63 where the
prefix has 300. -/
theorem decode_encode_nul_counterexample :
    (0 : Nat) ∈ ([300, 0, 65] : List Nat) ∧
    newString8859_1 (getString8859_1Chars [300, 0, 65]) ≠
      List.takeWhile (fun c => c != 0) [300, 0, 65] := by
  decide

/-- C10 (amended). For every string s containing the codepoint 0, the
encoded buffer has that 0 as an interior byte, so the null-terminated
interpretation used by the decoder (`strlen`) sees only the prefix of s
before its first NUL: decode(encode(s)) equals that prefix with each
codepoint above 255 replaced by `'?'` (63); in particular, when every
codepoint of the prefix is at most 255, decode(encode(s)) equals exactly
that proper prefix, which is strictly shorter than s; no error is
raised. -/
theorem decode_encode_nul_amended (s : List Nat) (h : 0 ∈ s) :
    newString8859_1 (getString8859_1Chars s) =
      (s.takeWhile (fun c => c != 0)).map encodeChar ∧
    ((∀ c ∈ s.takeWhile (fun c => c != 0), c ≤ 255) →
      newString8859_1 (getString8859_1Chars s) =
        s.takeWhile (fun c => c != 0)) ∧
    (s.takeWhile (fun c => c != 0)).length < s.length := by
  refine ⟨newString_getString s, ?_, takeWhile_length_lt_of_mem_zero h⟩
  intro hle
  rw [newString_getString]
  have hid : ∀ c ∈ s.takeWhile (fun c => c != 0), encodeChar c = c := by
    intro c hc
    have := hle c hc
    unfold encodeChar
    split <;> omega
  rw [List.map_congr_left hid]
  simp

/-- Witness for `decode_encode_nul_amended` at the string with codepoints
72, 0, 105: decoding the encoding gives back only the prefix before the
NUL, which is strictly shorter than the input. -/
theorem decode_encode_nul_amended_witness :
    newString8859_1 (getString8859_1Chars [72, 0, 105]) =
      List.takeWhile (fun c => c != 0) [72, 0, 105] ∧
    (List.takeWhile (fun c => c != 0) ([72, 0, 105] : List Nat)).length < 3 := by
  have h := decode_encode_nul_amended [72, 0, 105] (by decide)
  exact ⟨h.2.1 (by decide), h.2.2⟩

/-! ### `getStat0` (`com_aoapps_io_posix_PosixFile.c`) -/

/-- The fields of the kernel's `struct stat` read by `getStat0`. -/
structure StatBuf where
  st_dev : Int
  st_ino : Int
  st_mode : Int
  st_nlink : Int
  st_uid : Int
  st_gid : Int
  st_rdev : Int
  st_size : Int
  st_blksize : Int
  st_blocks : Int
  st_atime : Int
  st_mtime : Int
  st_ctime : Int
  deriving DecidableEq, Repr

/-- Outcome of the `lstat` syscall: success filling the buffer, or failure
with an errno value. Supplied explicitly, since the kernel's behaviour is
environment nondeterminism. -/
inductive LstatResult where
  | ok (buff : StatBuf)
  | fail (err : Nat)
  deriving DecidableEq, Repr

/-- The Java `Stat` value object assembled by `getStat0`. `fileExists`
models the `exists` flag (`exists` is not a usable identifier here). -/
structure Stat where
  fileExists : Bool
  device : Int
  inode : Int
  mode : Int
  numberLinks : Int
  uid : Int
  gid : Int
  deviceIdentifier : Int
  size : Int
  blockSize : Int
  blockCount : Int
  accessTime : Int
  modifyTime : Int
  changeTime : Int
  deriving DecidableEq, Repr

/-- The `Stat.NOT_EXISTS` static value returned when the path does not
exist: existence flag false, every other field zero. -/
def Stat.NOT_EXISTS : Stat :=
  { fileExists := false, device := 0, inode := 0, mode := 0,
    numberLinks := 0, uid := 0, gid := 0, deviceIdentifier := 0, size := 0,
    blockSize := 0, blockCount := 0, accessTime := 0, modifyTime := 0,
    changeTime := 0 }

/-- Transcription of `Java_com_aoapps_io_posix_PosixFile_getStat0`: on
`lstat` success the `Stat` is filled from the buffer with each timestamp
multiplied by 1000; on failure with `errno` equal to ENOENT or ENOTDIR the
static `NOT_EXISTS` value is returned; on any other failure the exception
class `getErrorType(errno)` is thrown. -/
def getStat0 (r : LstatResult) : Except String Stat :=
  match r with
  | .ok buff =>
      .ok { fileExists := true
          , device := buff.st_dev
          , inode := buff.st_ino
          , mode := buff.st_mode
          , numberLinks := buff.st_nlink
          , uid := buff.st_uid
          , gid := buff.st_gid
          , deviceIdentifier := buff.st_rdev
          , size := buff.st_size
          , blockSize := buff.st_blksize
          , blockCount := buff.st_blocks
          , accessTime := buff.st_atime * 1000
          , modifyTime := buff.st_mtime * 1000
          , changeTime := buff.st_ctime * 1000 }
  | .fail e =>
      if e = ENOENT ∨ e = ENOTDIR then .ok Stat.NOT_EXISTS
      else .error (aoapps.getErrorType e)

/-- C4. When `lstat` fails with ENOENT or with ENOTDIR, `getStat0`
succeeds (no classified error) and returns the result whose existence flag
is false; ENOTDIR is treated identically to ENOENT. -/
theorem getStat0_not_found (e : Nat) (h : e = ENOENT ∨ e = ENOTDIR) :
    getStat0 (.fail e) = .ok Stat.NOT_EXISTS ∧
    (∃ s, getStat0 (.fail e) = .ok s ∧ s.fileExists = false) ∧
    getStat0 (.fail ENOTDIR) = getStat0 (.fail ENOENT) := by
  have h1 : getStat0 (.fail e) = .ok Stat.NOT_EXISTS := by
    simp only [getStat0]
    rw [if_pos h]
  exact ⟨h1, ⟨Stat.NOT_EXISTS, h1, rfl⟩, rfl⟩

/-- Witness for `getStat0_not_found` at errno 2 (ENOENT). -/
theorem getStat0_not_found_witness :
    getStat0 (.fail 2) = .ok Stat.NOT_EXISTS ∧
    (∃ s, getStat0 (.fail 2) = .ok s ∧ s.fileExists = false) ∧
    getStat0 (.fail ENOTDIR) = getStat0 (.fail ENOENT) :=
  getStat0_not_found 2 (Or.inl rfl)

/-- C5. Every `Stat` returned by `getStat0` whose existence flag is
false has every other field equal to zero. -/
theorem getStat0_not_exists_fields (r : LstatResult) (s : Stat)
    (hok : getStat0 r = .ok s) (hex : s.fileExists = false) :
    s.device = 0 ∧ s.inode = 0 ∧ s.mode = 0 ∧ s.numberLinks = 0 ∧
    s.uid = 0 ∧ s.gid = 0 ∧ s.deviceIdentifier = 0 ∧ s.size = 0 ∧
    s.blockSize = 0 ∧ s.blockCount = 0 ∧ s.accessTime = 0 ∧
    s.modifyTime = 0 ∧ s.changeTime = 0 := by
  cases r with
  | ok buff =>
    simp only [getStat0] at hok
    rw [Except.ok.injEq] at hok
    rw [← hok] at hex
    simp at hex
  | fail e =>
    by_cases he : e = ENOENT ∨ e = ENOTDIR
    · simp only [getStat0] at hok
      rw [if_pos he, Except.ok.injEq] at hok
      subst hok
      simp [Stat.NOT_EXISTS]
    · simp only [getStat0] at hok
      rw [if_neg he] at hok
      exact Except.noConfusion hok

/-- Witness for `getStat0_not_exists_fields` at the ENOENT outcome. -/
theorem getStat0_not_exists_fields_witness :
    Stat.NOT_EXISTS.device = 0 ∧ Stat.NOT_EXISTS.inode = 0 ∧
    Stat.NOT_EXISTS.mode = 0 ∧ Stat.NOT_EXISTS.numberLinks = 0 ∧
    Stat.NOT_EXISTS.uid = 0 ∧ Stat.NOT_EXISTS.gid = 0 ∧
    Stat.NOT_EXISTS.deviceIdentifier = 0 ∧ Stat.NOT_EXISTS.size = 0 ∧
    Stat.NOT_EXISTS.blockSize = 0 ∧ Stat.NOT_EXISTS.blockCount = 0 ∧
    Stat.NOT_EXISTS.accessTime = 0 ∧ Stat.NOT_EXISTS.modifyTime = 0 ∧
    Stat.NOT_EXISTS.changeTime = 0 :=
  getStat0_not_exists_fields (.fail 2) Stat.NOT_EXISTS rfl rfl

/-! ### `utime0` (`com_aoapps_io_posix_PosixFile.c`) -/

/-- Transcription of `Java_com_aoapps_io_posix_PosixFile_utime0`: the
struct utimbuf passed to the `utime` syscall is
`times->actime = atime/1000; times->modtime = mtime/1000;` — C `jlong`
division, which truncates toward zero. -/
def utime0 (atime mtime : Int) : Int × Int :=
  (Int.tdiv atime 1000, Int.tdiv mtime 1000)

/-- C6. For every pair of millisecond timestamp inputs — negative
(pre-epoch) `jlong` values included — `utime0` passes `atime/1000` and
`mtime/1000` whole seconds to the `utime` syscall (C division truncating
toward zero), so a subsequent stat read-back (`getStat0`, which
multiplies the stored seconds by 1000) reports each timestamp with its
sub-second part (the truncating remainder `Int.tmod · 1000`)
discarded. -/
theorem utime0_truncates (atime mtime : Int) (buff : StatBuf)
    (hba : buff.st_atime = (utime0 atime mtime).1)
    (hbm : buff.st_mtime = (utime0 atime mtime).2) :
    utime0 atime mtime = (Int.tdiv atime 1000, Int.tdiv mtime 1000) ∧
    ∃ s, getStat0 (.ok buff) = .ok s ∧
      s.accessTime = atime - Int.tmod atime 1000 ∧
      s.modifyTime = mtime - Int.tmod mtime 1000 := by
  refine ⟨rfl, ⟨_, rfl, ?_, ?_⟩⟩
  · show buff.st_atime * 1000 = atime - Int.tmod atime 1000
    rw [hba]
    show (Int.tdiv atime 1000) * 1000 = atime - Int.tmod atime 1000
    have h := Int.tdiv_add_tmod atime 1000
    linarith
  · show buff.st_mtime * 1000 = mtime - Int.tmod mtime 1000
    rw [hbm]
    show (Int.tdiv mtime 1000) * 1000 = mtime - Int.tmod mtime 1000
    have h := Int.tdiv_add_tmod mtime 1000
    linarith

/-- A concrete `struct stat` buffer with every field zero, used to build
the read-back witness below. -/
def utimedBuf : StatBuf :=
  { st_dev := 0, st_ino := 0, st_mode := 0, st_nlink := 0, st_uid := 0,
    st_gid := 0, st_rdev := 0, st_size := 0, st_blksize := 0,
    st_blocks := 0, st_atime := 0, st_mtime := 0, st_ctime := 0 }

/-- Witness for `utime0_truncates`: millisecond inputs
(1700000000123, 1700000000456) read back as
(1700000000000, 1700000000000). -/
theorem utime0_truncates_witness :
    ∃ s,
      getStat0 (.ok { utimedBuf with
        st_atime := Int.tdiv 1700000000123 1000,
        st_mtime := Int.tdiv 1700000000456 1000 }) = .ok s ∧
      s.accessTime = 1700000000000 ∧ s.modifyTime = 1700000000000 := by
  have h := (utime0_truncates 1700000000123 1700000000456
    { utimedBuf with
      st_atime := Int.tdiv 1700000000123 1000,
      st_mtime := Int.tdiv 1700000000456 1000 }
    rfl rfl).2
  obtain ⟨s, h1, h2, h3⟩ := h
  exact ⟨s, h1, by rw [h2]; decide, by rw [h3]; decide⟩

/-! ### `readLink0` (`com_aoapps_io_posix_PosixFile.c`) -/

/-- The `destination` buffer of `readLink0` after a successful
`readlink(filename, destination, 4096)` call returning `charCount` bytes
and the statement `destination[charCount] = '\0'`: the kernel writes
`min(length of target, 4096)` bytes (the target truncated at the supplied
bound of 4096), then the wrapper null-terminates at index `charCount`. The
4097-byte allocation leaves room for the terminator at index 4096. -/
def readLink0Buffer (target : List Nat) : List Nat :=
  target.take 4096 ++ [0]

/-- Transcription of the success path of
`Java_com_aoapps_io_posix_PosixFile_readLink0`: the null-terminated buffer
is decoded with `newString8859_1`. -/
def readLink0 (target : List Nat) : List Nat :=
  newString8859_1 (readLink0Buffer target)

/-- C7. `readLink0` supplies `readlink` a buffer bound of 4096 bytes
within a 4097-byte allocation; on success returning `charCount` bytes it
null-terminates at index `charCount` and returns exactly those `charCount`
bytes — never null-padded beyond the actual length, never more than 4096
bytes — and a target longer than 4096 bytes is truncated with no error
signaled. -/
theorem readLink0_spec (target : List Nat)
    (h : ∀ b ∈ target, b ≠ 0 ∧ b < 256) :
    (readLink0Buffer target).length ≤ 4097 ∧
    readLink0 target = target.take 4096 ∧
    (readLink0 target).length = min target.length 4096 ∧
    (readLink0 target).length ≤ 4096 := by
  have hmain : readLink0 target = target.take 4096 := by
    unfold readLink0 readLink0Buffer newString8859_1
    rw [List.takeWhile_append_of_pos (fun b hb => by
      simp only [bne_iff_ne, ne_eq]
      exact (h b (List.mem_of_mem_take hb)).1)]
    rw [List.takeWhile_cons_of_neg (by simp), List.append_nil]
    have hid : ∀ b ∈ target.take 4096, b % 256 = b := fun b hb =>
      Nat.mod_eq_of_lt (h b (List.mem_of_mem_take hb)).2
    rw [List.map_congr_left hid]
    simp
  refine ⟨?_, hmain, ?_, ?_⟩
  · simp only [readLink0Buffer, List.length_append, List.length_take,
      List.length_singleton]
    omega
  · rw [hmain, List.length_take]
    omega
  · rw [hmain, List.length_take]
    omega

/-- Witness for `readLink0_spec` at the target "/tmp"
(bytes 47, 116, 109, 112). -/
theorem readLink0_spec_witness :
    readLink0 [47, 116, 109, 112] = [47, 116, 109, 112] ∧
    (readLink0 [47, 116, 109, 112]).length ≤ 4096 := by
  have h := readLink0_spec [47, 116, 109, 112] (by decide)
  exact ⟨by rw [h.2.1]; rfl, h.2.2.2⟩

/-! ### `addEntropy0` (`com_aoapps_io_posix_linux_DevRandom.c`) -/

/-- Reinterpretation of a mathematical integer as the value of a 32-bit
twos-complement signed `int` field. -/
def toInt32 (n : Int) : Int :=
  (n + 2147483648) % 4294967296 - 2147483648

/-- The `struct rand_pool_info` control request submitted to the kernel by
`ioctl(fdout, RNDADDENTROPY, rand_info)`. `entropy_count` and `buf_size`
are C `int` (32-bit signed) fields. -/
structure RandPoolInfo where
  entropy_count : Int
  buf_size : Int
  buf : List Int
  deriving DecidableEq, Repr

/-- Transcription of the request built by
`Java_com_aoapps_io_posix_linux_DevRandom_addEntropy0`:
`rand_info->entropy_count = len << 3; rand_info->buf_size = len;` and a
loop copying `body[c]` into `buf[c]` for every `c < len`. `len << 3` is
`len * 8` evaluated in the 32-bit signed field. -/
def addEntropy0 (randomData : List Int) : RandPoolInfo :=
  let len : Int := randomData.length
  { entropy_count := toInt32 (len * 8)
  , buf_size := len
  , buf := randomData }

/-- C8. The entropy-injection request's entropy credit equals the
bit-length of the supplied buffer — 8 × len, computed as `len << 3` in a
32-bit signed field — and its payload is a byte-for-byte copy of the
buffer of size len. -/
theorem addEntropy0_spec (randomData : List Int) :
    (addEntropy0 randomData).entropy_count =
      toInt32 (8 * randomData.length) ∧
    (8 * (randomData.length : Int) < 2147483648 →
      (addEntropy0 randomData).entropy_count = 8 * randomData.length) ∧
    (addEntropy0 randomData).buf_size = randomData.length ∧
    (addEntropy0 randomData).buf = randomData := by
  refine ⟨?_, ?_, rfl, rfl⟩
  · show toInt32 ((randomData.length : Int) * 8) = toInt32 (8 * randomData.length)
    rw [Int.mul_comm]
  · intro hlt
    show toInt32 ((randomData.length : Int) * 8) = 8 * randomData.length
    unfold toInt32
    have h0 : (0 : Int) ≤ randomData.length := Int.natCast_nonneg _
    omega

/-- Witness for `addEntropy0_spec`: a two-byte buffer yields entropy
credit 16 and a byte-for-byte payload of size 2. -/
theorem addEntropy0_spec_witness :
    (addEntropy0 [7, 250]).entropy_count = 16 ∧
    (addEntropy0 [7, 250]).buf_size = 2 ∧
    (addEntropy0 [7, 250]).buf = [7, 250] := by
  have h := addEntropy0_spec [7, 250]
  refine ⟨?_, ?_, h.2.2.2⟩
  · rw [h.2.1 (by decide)]
    decide
  · rw [h.2.2.1]
    decide
